import Mathlib

/-!
Verification development for the azul text-layout core.

The definitions below are shallow embeddings of the Rust sources:
  - src/azul-text-layout/src/azul_core/style.rs  (CSS selector matcher)
  - src/src/text_layout.rs                       (tokenizer, word positioner)
  - src/src/text_shaping.rs                      (shaper driver)
  - src/src/words.rs, src/azul-text-layout/src/ui_solver.rs (data model)

Machine integers (u32/usize) are modelled as Nat, i16/i32 as Int, and f32
pixel arithmetic as exact rational arithmetic over Rat.  External
collaborators (the allsorts OpenType shaper, unicode NFC normalization)
are modelled as explicit parameters; the embedded functions take the
already-NFC-normalized character sequence respectively an abstract
shaping environment.
-/

namespace Azul

/-! Part 1: CSS selector matcher (style.rs, css.rs) -/

/-- Mirror of css.rs CssNthChildPattern.  The field repeat is named
repeat' because repeat is reserved in Lean. -/
structure CssNthChildPattern where
  repeat' : Nat
  offset : Nat
deriving DecidableEq, Repr

/-- Mirror of css.rs CssNthChildSelector. -/
inductive CssNthChildSelector
  | Number (value : Nat)
  | Even
  | Odd
  | Pattern (p : CssNthChildPattern)
deriving DecidableEq, Repr

/-- Mirror of css.rs CssPathPseudoSelector. -/
inductive CssPathPseudoSelector
  | First
  | Last
  | NthChild (s : CssNthChildSelector)
  | Hover
  | Active
  | Focus
deriving DecidableEq, Repr

/-- Mirror of css.rs CssPathSelector.  NodeTypeTag is modelled as a plain
string (the matcher only compares it for equality); the constructor Type
is written TypeTag because Type is reserved in Lean. -/
inductive CssPathSelector
  | Global
  | TypeTag (tag : String)
  | Class (name : String)
  | Id (name : String)
  | PseudoSelector (p : CssPathPseudoSelector)
  | DirectChildren
  | Children
deriving DecidableEq, Repr

/-- Mirror of style.rs CascadeInfo. -/
structure CascadeInfo where
  index_in_parent : Nat
  is_last_child : Bool
deriving DecidableEq, Repr

/-- The slice of dom.rs NodeData that selector_group_matches reads:
get_node_type().get_path() and the id/class list. -/
structure NodeData where
  node_type : String
  classes : List String
  ids : List String
deriving DecidableEq, Repr

/-- Mirror of style.rs CssGroupSplitReason. -/
inductive CssGroupSplitReason
  | Children
  | DirectChildren
deriving DecidableEq, Repr

/-- Embedding of style.rs selector_group_matches.  The Rust loop returns
false on the first failing simple selector and true after the loop; the
recursion below computes the same boolean.  Note that the Even, Odd and
Pattern branches are transcribed exactly as in the source (lines
291-317), including the direction of each early-return test. -/
def selector_group_matches :
    List CssPathSelector → CascadeInfo → NodeData →
    Option CssPathPseudoSelector → Bool → Bool
  | [], _, _, _, _ => true
  | sel :: rest, html_node, node_data, expected_path_ending, is_last_content_group =>
    let cont := selector_group_matches rest html_node node_data
      expected_path_ending is_last_content_group
    match sel with
    | .Global => cont
    | .TypeTag t => if node_data.node_type ≠ t then false else cont
    | .Class c => if ¬ node_data.classes.contains c then false else cont
    | .Id i => if ¬ node_data.ids.contains i then false else cont
    | .PseudoSelector p =>
      match p with
      | .First => if html_node.index_in_parent ≠ 0 then false else cont
      | .Last => if ¬ html_node.is_last_child then false else cont
      | .NthChild x =>
        let index_in_parent := html_node.index_in_parent + 1
        match x with
        | .Number value => if index_in_parent ≠ value then false else cont
        | .Even => if index_in_parent % 2 = 0 then false else cont
        | .Odd => if index_in_parent % 2 = 1 then false else cont
        | .Pattern pat =>
          if index_in_parent ≥ pat.offset ∧ (index_in_parent - pat.offset) % pat.repeat' ≠ 0
          then false else cont
      | .Hover =>
        if ¬ is_last_content_group then false
        else if expected_path_ending ≠ some .Hover then false else cont
      | .Active =>
        if ¬ is_last_content_group then false
        else if expected_path_ending ≠ some .Active then false else cont
      | .Focus =>
        if ¬ is_last_content_group then false
        else if expected_path_ending ≠ some .Focus then false else cont
    | .DirectChildren => false
    | .Children => false

/-- The nth-child semantics exactly as the specification words them
(spec section 4.6): Number(v) matches iff k equals v, Even matches iff
k mod 2 equals 0, Odd matches iff k mod 2 equals 1, Pattern matches iff
k is at least offset and (k - offset) mod repeat equals 0.  Written from
the spec, to be compared against selector_group_matches. -/
def nth_child_matches_spec (k : Nat) : CssNthChildSelector → Bool
  | .Number v => k == v
  | .Even => k % 2 == 0
  | .Odd => k % 2 == 1
  | .Pattern p => decide (k ≥ p.offset) && (k - p.offset) % p.repeat' == 0

/-- Embedding of the inner while loop of CssGroupIterator::next
(style.rs lines 134-158): walks new_idx downward from the current index,
accumulating simple selectors in push order until a combinator or the
front of the path is reached.  Returns the accumulated group, the value
of new_idx at loop exit, and the combinator hit (if any); returns none
when the indexing operation fails (the question-mark operator in the
source), which cannot happen for indices bounded by the path length. -/
def collect_group (path : List CssPathSelector) :
    Nat → List CssPathSelector →
    Option (List CssPathSelector × Nat × Option CssGroupSplitReason)
  | 0, acc => some (acc, 0, none)
  | n + 1, acc =>
    match path.get? n with
    | none => none
    | some .Children => some (acc, n + 1, some .Children)
    | some .DirectChildren => some (acc, n + 1, some .DirectChildren)
    | some other => collect_group path n (acc ++ [other])

/-- Embedding of CssGroupIterator::next (style.rs lines 132-177).
Given the current index and the stored last_reason, returns the next
content group, the updated last_reason (which is also the reason paired
with the group), and the updated current index. -/
def css_group_next (path : List CssPathSelector) (current_idx : Nat)
    (last_reason : CssGroupSplitReason) :
    Option (List CssPathSelector × CssGroupSplitReason × Nat) :=
  if current_idx = 0 then none
  else
    match collect_group path current_idx [] with
    | none => none
    | some (group, new_idx, hit) =>
      let reason := hit.getD last_reason
      if new_idx = 0 then
        if group.isEmpty then none else some (group, reason, 0)
      else some (group, reason, new_idx - 1)

/-- Embedding of the while-let loop of matches_html_element (style.rs
lines 43-86).  The extra fuel argument makes the recursion structural;
css_group_next strictly decreases current_idx, so fuel equal to the
initial current_idx plus one is always sufficient and the fuel-exhausted
branch is never taken when called through matches_html_element.
The DOM is passed as total lookup functions parent_of, cascade and data
indexed by node id, mirroring the container indexing of the source.
Note that is_last_content_group (style.rs lines 125-128) is computed
from the already-updated current index: current_idx + 1 equals
path length - 1 (with saturating Nat arithmetic). -/
def matches_html_element_loop (path : List CssPathSelector)
    (parent_of : Nat → Option Nat) (cascade : Nat → CascadeInfo)
    (data : Nat → NodeData) (expected_path_ending : Option CssPathPseudoSelector) :
    Nat → Nat → CssGroupSplitReason → Option Nat → Bool → Bool → Bool
  | 0, _, _, _, _, last_selector_matched => last_selector_matched
  | fuel + 1, current_idx, last_reason, current_node,
      direct_parent_has_to_match, last_selector_matched =>
    match css_group_next path current_idx last_reason with
    | none => last_selector_matched
    | some (content_group, reason, idx') =>
      let is_last_content_group : Bool := idx' + 1 == path.length - 1
      match current_node with
      | none => content_group == [CssPathSelector.Global]
      | some cur_node_id =>
        let current_selector_matches := selector_group_matches content_group
          (cascade cur_node_id) (data cur_node_id) expected_path_ending
          is_last_content_group
        if direct_parent_has_to_match ∧ ¬ current_selector_matches then false
        else if current_selector_matches ∧ ¬ last_selector_matched then false
        else
          matches_html_element_loop path parent_of cascade data
            expected_path_ending fuel idx' reason (parent_of cur_node_id)
            (reason == CssGroupSplitReason.DirectChildren)
            current_selector_matches

/-- Embedding of style.rs matches_html_element. -/
def matches_html_element (path : List CssPathSelector) (node_id : Nat)
    (parent_of : Nat → Option Nat) (cascade : Nat → CascadeInfo)
    (data : Nat → NodeData)
    (expected_path_ending : Option CssPathPseudoSelector) : Bool :=
  if path.isEmpty then false
  else
    matches_html_element_loop path parent_of cascade data expected_path_ending
      (path.length + 1) path.length CssGroupSplitReason.Children
      (some node_id) false true

/-- A two-node DOM for the pseudo-anchoring scenario: node 0 is a body
element with no parent, node 1 is a div with id main whose parent is
node 0. -/
def c2_parent_of : Nat → Option Nat := fun n => if n = 1 then some 0 else none

def c2_cascade : Nat → CascadeInfo := fun _ => ⟨0, true⟩

def c2_data : Nat → NodeData := fun n =>
  if n = 0 then ⟨"body", [], []⟩ else ⟨"div", [], ["main"]⟩

/-- CSS path body > div#main:hover as parsed selectors. -/
def c2_path_hover_last : List CssPathSelector :=
  [.TypeTag "body", .DirectChildren, .Id "main", .PseudoSelector .Hover]

/-- CSS path body:hover > div#main as parsed selectors. -/
def c2_path_hover_first : List CssPathSelector :=
  [.TypeTag "body", .PseudoSelector .Hover, .DirectChildren, .Id "main"]

/-- CSS path body > div#main as parsed selectors. -/
def c2_path_plain : List CssPathSelector :=
  [.TypeTag "body", .DirectChildren, .Id "main"]

/-- C1: the claim states that selector_group_matches evaluates NthChild
on the 1-based position k exactly as the spec words it.  The code does
not: on a node at 1-based position k = 2 (index_in_parent = 1) the
selector nth-child(even) does NOT match in the code although the spec
semantics say it matches; nth-child(odd) is likewise inverted at k = 1;
and Pattern with repeat 2, offset 3 DOES match at k = 1 in the code
although k < offset, so the spec semantics say it does not.  Only the
concrete Pattern repeat 2 offset 1 scenario of the claim agrees with the
code (positions 1, 3, 5 of five siblings).  This theorem evaluates the
embedded code and the spec semantics side by side at those inputs. -/
theorem c1_nth_child_even_odd_inverted :
    (selector_group_matches [.PseudoSelector (.NthChild .Even)]
        ⟨1, false⟩ ⟨"div", [], []⟩ none false = false
      ∧ nth_child_matches_spec 2 .Even = true)
    ∧ (selector_group_matches [.PseudoSelector (.NthChild .Odd)]
        ⟨0, false⟩ ⟨"div", [], []⟩ none false = false
      ∧ nth_child_matches_spec 1 .Odd = true)
    ∧ (selector_group_matches [.PseudoSelector (.NthChild (.Pattern ⟨2, 3⟩))]
        ⟨0, false⟩ ⟨"div", [], []⟩ none false = true
      ∧ nth_child_matches_spec 1 (.Pattern ⟨2, 3⟩) = false)
    ∧ ((List.range 5).map (fun i =>
        selector_group_matches [.PseudoSelector (.NthChild (.Pattern ⟨2, 1⟩))]
          ⟨i, false⟩ ⟨"div", [], []⟩ none false)
        = [true, false, true, false, true]
      ∧ (List.range 5).map (fun i => nth_child_matches_spec (i + 1) (.Pattern ⟨2, 1⟩))
        = [true, false, true, false, true]) := by
  decide

/-- C2: the claim states that with expected ending Hover the path
body > div#main:hover matches the div#main node (a direct child of a
body node) and body:hover > div#main does not.  The code disagrees on
the first path: is_last_content_group (style.rs lines 125-128) holds
only when the iterator index after extracting the group satisfies
idx + 1 = path length - 1, which fails for the rightmost group of
body > div#main:hover (that group has two selectors), so the Hover
selector rejects and the whole match returns false — contradicting the
NOTE comment in the source that promises this very path will match.
This theorem evaluates the embedded matcher on both paths of the claim
(both return false) and checks the matcher is otherwise functional on
the same DOM (body > div#main matches, and div#main:hover as a whole
path of one group matches). -/
theorem c2_hover_anchoring_fails_in_code :
    matches_html_element c2_path_hover_last 1 c2_parent_of c2_cascade c2_data
      (some .Hover) = false
    ∧ matches_html_element c2_path_hover_first 1 c2_parent_of c2_cascade c2_data
      (some .Hover) = false
    ∧ matches_html_element c2_path_plain 1 c2_parent_of c2_cascade c2_data
      none = true
    ∧ matches_html_element [.Id "main", .PseudoSelector .Hover] 1 c2_parent_of
      c2_cascade c2_data (some .Hover) = true := by
  decide

/-! Part 2: tokenizer (text_layout.rs split_text_into_words, words.rs).

The Rust function first normalizes its input to NFC through the external
unicode_normalization crate and then scans the normalized string by
char_indices (byte offset, character).  The embedding below takes the
already-normalized character sequence as its input; every concrete input
used in a theorem is NFC-stable, so the normalization step is the
identity on it. -/

/-- Mirror of words.rs Token. -/
inductive Token
  | Word
  | Return
  | Space
deriving DecidableEq, Repr

/-- Mirror of words.rs Word: a half-open byte range into the normalized
string plus the token kind. -/
structure Word where
  index_start : Nat
  index_stop : Nat
  word_type : Token
deriving DecidableEq, Repr

/-- Mirror of words.rs Words. -/
structure Words where
  items : List Word
  internal_str : List Char
deriving DecidableEq, Repr

/-- UTF-8 encoding of one character, by the standard scheme; used to
relate byte ranges to the normalized string. -/
def char_utf8_bytes (c : Char) : List Nat :=
  let n := c.toNat
  if n < 0x80 then [n]
  else if n < 0x800 then [0xC0 + n / 0x40, 0x80 + n % 0x40]
  else if n < 0x10000 then
    [0xE0 + n / 0x1000, 0x80 + (n / 0x40) % 0x40, 0x80 + n % 0x40]
  else
    [0xF0 + n / 0x40000, 0x80 + (n / 0x1000) % 0x40,
      0x80 + (n / 0x40) % 0x40, 0x80 + n % 0x40]

/-- UTF-8 byte sequence of a character list (the byte view of the Rust
String that the token ranges index into). -/
def string_utf8_bytes (s : List Char) : List Nat :=
  (s.map char_utf8_bytes).flatten

/-- Byte length of the normalized string (String::len in the source). -/
def string_utf8_len (s : List Char) : Nat :=
  (string_utf8_bytes s).length

/-- Mirror of str::char_indices starting at byte offset i: each
character paired with its byte offset. -/
def char_indices (i : Nat) : List Char → List (Nat × Char)
  | [] => []
  | c :: cs => (i, c) :: char_indices (i + c.utf8Size) cs

/-- The mutable state of the scanning loop in split_text_into_words
(text_layout.rs lines 29-37). -/
structure SplitState where
  words : List Word
  current_word_start : Nat
  last_char_idx : Nat
  last_char : Char
  last_char_was_whitespace : Bool
deriving Repr

/-- One iteration of the scanning loop of split_text_into_words
(text_layout.rs lines 39-88), for the character ch at byte offset
ch_idx.  The delimiter ranges are transcribed exactly as in the source:
a space is recorded as last_char_idx + 1 .. ch_idx + 1, a newline after
a carriage return as last_char_idx .. ch_idx + 1, and any other newline
as last_char_idx + 1 .. ch_idx + 1. -/
def split_step (st : SplitState) (p : Nat × Char) : SplitState :=
  let ch_idx := p.1
  let ch := p.2
  let current_char_is_whitespace := ch == ' ' || ch == '\r' || ch == '\n'
  let should_push_delimiter : Option Word :=
    if ch == ' ' then
      some ⟨st.last_char_idx + 1, ch_idx + 1, Token.Space⟩
    else if ch == '\n' then
      if st.last_char == '\r' then
        some ⟨st.last_char_idx, ch_idx + 1, Token.Return⟩
      else
        some ⟨st.last_char_idx + 1, ch_idx + 1, Token.Return⟩
    else none
  let should_push_word : Option Word :=
    if current_char_is_whitespace && ! st.last_char_was_whitespace then
      some ⟨st.current_word_start, ch_idx, Token.Word⟩
    else none
  { words := st.words ++ (should_push_word.toList ++ should_push_delimiter.toList)
    current_word_start :=
      if current_char_is_whitespace then ch_idx + 1 else st.current_word_start
    last_char_idx := ch_idx
    last_char := ch
    last_char_was_whitespace := current_char_is_whitespace }

/-- The state after the scanning loop of split_text_into_words has
consumed the whole normalized character sequence. -/
def split_scan (normalized : List Char) : SplitState :=
  (char_indices 0 normalized).foldl split_step ⟨[], 0, 0, '0', false⟩

/-- The token list after the trailing-word push of split_text_into_words
(text_layout.rs lines 90-96): a trailing Word token is pushed when
current_word_start differs from last_char_idx + 1. -/
def split_with_last (normalized : List Char) : List Word :=
  let st := split_scan normalized
  if st.current_word_start ≠ st.last_char_idx + 1 then
    st.words ++ [⟨st.current_word_start, string_utf8_len normalized, Token.Word⟩]
  else st.words

/-- Embedding of text_layout.rs split_text_into_words, lines 22-112,
applied to the already NFC-normalized character sequence.  After the
scan and the trailing-word push, a trailing Return token is dropped
(text_layout.rs lines 98-105). -/
def split_text_into_words (normalized : List Char) : Words :=
  let with_last := split_with_last normalized
  let items :=
    match with_last.getLast? with
    | some w =>
      if w.word_type = Token.Return then with_last.dropLast else with_last
    | none => with_last
  ⟨items, normalized⟩

/-- The bytes selected by one token range out of the byte view of the
normalized string. -/
def token_slice (bytes : List Nat) (w : Word) : List Nat :=
  (bytes.drop w.index_start).take (w.index_stop - w.index_start)

/-- Concatenation of the byte ranges of all Word and Space tokens, in
order; the quantity the tokenization-partition invariant of the spec is
about. -/
def word_space_concat (w : Words) : List Nat :=
  ((w.items.filter (fun t => t.word_type ≠ Token.Return)).map
    (token_slice (string_utf8_bytes w.internal_str))).flatten

/-- Decidable check that a token list has sorted, non-overlapping byte
ranges: each token ends no later than the next one starts. -/
def ranges_sorted_disjoint : List Word → Bool
  | [] => true
  | [_] => true
  | a :: b :: rest =>
    a.index_stop ≤ b.index_start && ranges_sorted_disjoint (b :: rest)

/-- C3: the claim states that the token byte ranges are sorted and
non-overlapping and that the Word and Space ranges concatenate back to
the NFC input (with Return ranges removed), including for multi-byte
characters before a space.  The code computes a Space range as
last_char_idx + 1 .. ch_idx + 1, where last_char_idx is the byte offset
of the previous character, so whenever that character is wider than one
byte the Space range starts inside it.  On the NFC-stable input of the
precomposed character U+00E9 followed by a space the tokens are
Word 0..2 and Space 1..3: they overlap, and their concatenation
duplicates byte 1 instead of reproducing the input (which contains no
Return token, so nothing is to be removed).  A leading space breaks the
property even for pure ASCII: on a single-space input the tokens are
Word 0..0 and Space 1..1, whose concatenation is empty.  The same slip
makes the unicode case of the in-repo test test_split_words fail: the
test expects Word 0..8, Space 8..9, Word 9..15 while the function
returns Word 0..24, Space 22..25, Word 25..43. -/
theorem c3_partition_invariant_violated :
    ((split_text_into_words ['é', ' ']).items
      = [⟨0, 2, Token.Word⟩, ⟨1, 3, Token.Space⟩]
      ∧ ranges_sorted_disjoint (split_text_into_words ['é', ' ']).items = false
      ∧ word_space_concat (split_text_into_words ['é', ' '])
        ≠ string_utf8_bytes ['é', ' '])
    ∧ ((split_text_into_words [' ']).items
      = [⟨0, 0, Token.Word⟩, ⟨1, 1, Token.Space⟩]
      ∧ word_space_concat (split_text_into_words [' '])
        ≠ string_utf8_bytes [' '])
    ∧ (split_text_into_words ("㌊㌋㌌㌍㌎㌏㌐㌑ ㌒㌓㌔㌕㌖㌗".toList)).items
      ≠ [⟨0, 8, Token.Word⟩, ⟨8, 9, Token.Space⟩, ⟨9, 15, Token.Word⟩] := by
  decide

theorem char_indices_snd_mem {l : List Char} :
    ∀ {i : Nat} {p : Nat × Char}, p ∈ char_indices i l → p.2 ∈ l := by
  induction l with
  | nil => intro i p h; simp [char_indices] at h
  | cons c cs ih =>
    intro i p h
    simp only [char_indices, List.mem_cons] at h
    rcases h with rfl | h
    · simp
    · exact List.mem_cons_of_mem _ (ih h)

theorem split_step_words_no_return (st : SplitState) (p : Nat × Char)
    (hst : ∀ w ∈ st.words, w.word_type ≠ Token.Return) (hp : p.2 ≠ '\n') :
    ∀ w ∈ (split_step st p).words, w.word_type ≠ Token.Return := by
  intro w hw
  have hn : (p.2 == '\n') = false := by simp [hp]
  simp only [split_step, hn, Bool.false_eq_true, if_false, List.mem_append] at hw
  rcases hw with hw | hw | hw
  · exact hst w hw
  · simp at hw
    obtain ⟨-, rfl⟩ := hw
    simp
  · simp at hw
    obtain ⟨-, rfl⟩ := hw
    simp

theorem split_scan_no_return (chars : List Char) (h : '\n' ∉ chars) :
    ∀ w ∈ (split_scan chars).words, w.word_type ≠ Token.Return := by
  have key : ∀ (l : List (Nat × Char)) (st : SplitState),
      (∀ w ∈ st.words, w.word_type ≠ Token.Return) →
      (∀ p ∈ l, p.2 ≠ '\n') →
      ∀ w ∈ (l.foldl split_step st).words, w.word_type ≠ Token.Return := by
    intro l
    induction l with
    | nil => intro st hst _; simpa using hst
    | cons q qs ih =>
      intro st hst hl
      simp only [List.foldl_cons]
      exact ih _ (split_step_words_no_return st q hst (hl q (by simp)))
        (fun p hp => hl p (by simp [hp]))
  exact key _ _ (by simp) (fun p hp hEq => h (hEq ▸ char_indices_snd_mem hp))

theorem split_with_last_no_return (chars : List Char) (h : '\n' ∉ chars) :
    ∀ w ∈ split_with_last chars, w.word_type ≠ Token.Return := by
  intro w hw
  simp only [split_with_last] at hw
  split at hw
  · rcases List.mem_append.mp hw with h1 | h1
    · exact split_scan_no_return chars h w h1
    · simp only [List.mem_singleton] at h1
      subst h1
      simp
  · exact split_scan_no_return chars h w hw

/-- C4 amended: the claim states that a lone carriage return (not
followed by a newline) produces a Return token; in the code the match on
the current character only produces delimiter tokens for a space and for
a newline, so a lone carriage return produces no token at all — it
merely acts as whitespace that terminates the current word and is
excluded from every token range.  Amended claim: an input containing no
newline character — in particular one whose carriage returns are all
lone — yields no Return token whatsoever. -/
theorem c4_lone_cr_emits_no_return (chars : List Char) (h : '\n' ∉ chars) :
    ¬ ∃ w ∈ (split_text_into_words chars).items, w.word_type = Token.Return := by
  rintro ⟨w, hw, hret⟩
  have hsub : w ∈ split_with_last chars := by
    simp only [split_text_into_words] at hw
    rcases hl : (split_with_last chars).getLast? with _ | wl <;>
        simp only [hl] at hw
    · exact hw
    · rcases hr : decide (wl.word_type = Token.Return) with _ | _
      · simp only [decide_eq_false_iff_not] at hr
        simp only [if_neg hr] at hw
        exact hw
      · simp only [decide_eq_true_eq] at hr
        simp only [if_pos hr] at hw
        exact (List.dropLast_sublist _).subset hw
  exact split_with_last_no_return chars h w hsub hret

/-- C4 witness: the amended theorem applied to the concrete input of one
word, a lone carriage return and another word. -/
theorem c4_lone_cr_emits_no_return_witness :
    ¬ ∃ w ∈ (split_text_into_words ['a', '\r', 'b']).items,
      w.word_type = Token.Return :=
  c4_lone_cr_emits_no_return ['a', '\r', 'b'] (by decide)

/-- C4 counterexample: on the input of a word, a lone carriage return
and another word, the claim as stated is false — no Return token is
emitted at the next non-newline character nor anywhere else; the output
is exactly two Word tokens. -/
theorem c4_lone_cr_counterexample :
    (split_text_into_words ['a', '\r', 'b']).items
      = [⟨0, 1, Token.Word⟩, ⟨2, 3, Token.Word⟩]
    ∧ ¬ ∃ w ∈ (split_text_into_words ['a', '\r', 'b']).items,
      w.word_type = Token.Return := by
  decide

/-! Part 3: word positioner (text_layout.rs position_words, words.rs,
ui_solver.rs).  The f32 pixel arithmetic of the source is modelled as
exact rational arithmetic. -/

structure LogicalPosition where
  x : ℚ
  y : ℚ
deriving DecidableEq, Repr

structure LogicalSize where
  width : ℚ
  height : ℚ
deriving DecidableEq, Repr

structure LogicalRect where
  origin : LogicalPosition
  size : LogicalSize
deriving DecidableEq, Repr

/-- Mirror of the allsorts gpos Placement enum (spec section 3); the
positioner only ever compares a placement against Placement.none. -/
inductive Placement
  | none
  | distance (dx dy : Int)
  | markAnchor (base_glyph_index : Nat)
  | markOverprint (base_glyph_index : Nat)
  | cursiveAnchor (exit_glyph_index : Nat)
deriving DecidableEq, Repr

/-- Mirror of allsorts gsub GlyphOrigin. -/
inductive GlyphOrigin
  | char (c : Char)
  | direct
deriving DecidableEq, Repr

/-- Mirror of allsorts unicode VariationSelector (VS1-3, VS15-16). -/
inductive VariationSelector
  | vs01
  | vs02
  | vs03
  | vs15
  | vs16
deriving DecidableEq, Repr

/-- Mirror of allsorts gsub RawGlyph with unit extra data. -/
structure RawGlyph where
  unicodes : List Char
  glyph_index : Nat
  liga_component_pos : Nat
  glyph_origin : GlyphOrigin
  small_caps : Bool
  multi_subst_dup : Bool
  is_vert_alt : Bool
  fake_bold : Bool
  fake_italic : Bool
  variation : Option VariationSelector
deriving DecidableEq, Repr

/-- Mirror of allsorts gpos Info: the substituted glyph together with
the kerning delta and placement that GPOS resolved for it. -/
structure Info where
  glyph : RawGlyph
  kerning : Int
  placement : Placement
deriving DecidableEq, Repr

/-- Mirror of words.rs Advance. -/
structure Advance where
  advance_x : Nat
  size_x : Int
  size_y : Int
deriving DecidableEq, Repr

/-- Mirror of words.rs GlyphInfo. -/
structure GlyphInfo where
  info : Info
  advance : Advance
deriving DecidableEq, Repr

/-- Mirror of words.rs GlyphInfo::get_x_advance_total_unscaled:
advance_x as i32 plus kerning as i32. -/
def GlyphInfo.get_x_advance_total_unscaled (g : GlyphInfo) : Int :=
  (g.advance.advance_x : Int) + g.info.kerning

/-- Mirror of words.rs ShapedWord. -/
structure ShapedWord where
  glyph_infos : List GlyphInfo
  word_width : Nat
deriving DecidableEq, Repr

/-- Mirror of ShapedWord::get_word_width: word_width divided by
units_per_em times the target font size. -/
def ShapedWord.get_word_width (w : ShapedWord) (units_per_em : Nat)
    (target_font_size : ℚ) : ℚ :=
  (w.word_width : ℚ) / (units_per_em : ℚ) * target_font_size

/-- Mirror of ShapedWord::number_of_glyphs: the count of glyphs whose
placement is Placement.none. -/
def ShapedWord.number_of_glyphs (w : ShapedWord) : Nat :=
  (w.glyph_infos.filter (fun g => g.info.placement = Placement.none)).length

/-- Mirror of words.rs ShapedWords. -/
structure ShapedWords where
  items : List ShapedWord
  longest_word_width : Nat
  space_advance : Nat
  font_metrics_units_per_em : Nat
  font_metrics_ascender : Int
  font_metrics_descender : Int
  font_metrics_line_gap : Int
deriving DecidableEq, Repr

/-- Mirror of ShapedWords::get_space_advance_px. -/
def ShapedWords.get_space_advance_px (s : ShapedWords)
    (target_font_size : ℚ) : ℚ :=
  (s.space_advance : ℚ) / (s.font_metrics_units_per_em : ℚ) * target_font_size

/-- Mirror of ui_solver.rs InlineTextLine; the inclusive word range of
the line (named words in the source used by position_words) is stored as
its two endpoints. -/
structure InlineTextLine where
  words_start : Nat
  words_end : Nat
  bounds : LogicalRect
deriving DecidableEq, Repr

/-- Mirror of words.rs WordPosition. -/
structure WordPosition where
  shaped_word_index : Option Nat
  position : LogicalPosition
  size : LogicalSize
deriving DecidableEq, Repr

/-- Mirror of ui_solver.rs ResolvedTextLayoutOptions (the holes field is
unused by position_words and omitted). -/
structure ResolvedTextLayoutOptions where
  font_size_px : ℚ
  line_height : Option ℚ
  letter_spacing : Option ℚ
  word_spacing : Option ℚ
  tab_width : Option ℚ
  max_horizontal_width : Option ℚ
  leading : Option ℚ
deriving DecidableEq, Repr

def DEFAULT_LINE_HEIGHT : ℚ := 1
def DEFAULT_WORD_SPACING : ℚ := 1

/-- Mirror of words.rs WordPositions. -/
structure WordPositions where
  text_layout_options : ResolvedTextLayoutOptions
  word_positions : List WordPosition
  line_breaks : List InlineTextLine
  trailing : ℚ
  number_of_shaped_words : Nat
  number_of_lines : Nat
  content_size : LogicalSize
deriving DecidableEq, Repr

/-- Mirror of text_layout.rs LineCaretIntersection. -/
inductive LineCaretIntersection
  | NoLineBreak (new_x new_y : ℚ)
  | LineBreak (new_x new_y : ℚ)
deriving DecidableEq, Repr

/-- Embedding of LineCaretIntersection::new (text_layout.rs lines
388-423). -/
def LineCaretIntersection.new (current_x word_width current_y line_height : ℚ)
    (max_width : Option ℚ) : LineCaretIntersection :=
  match max_width with
  | Option.none => .NoLineBreak (current_x + word_width) current_y
  | some max =>
    if current_x = 0 ∧ max < word_width then
      .NoLineBreak (current_x + word_width) current_y
    else if current_x + word_width > max then
      .LineBreak 0 (current_y + line_height)
    else
      .NoLineBreak (current_x + word_width) current_y

/-- The line intersection rule exactly as the specification words it
(spec section 4.4): absent max_width never breaks; a word wider than
max_width starting at x = 0 does not break; otherwise overflow past
max_width breaks to (0, current_y + line_height); otherwise the caret
advances to (current_x + word_width, current_y).  Written from the
spec, to be compared against LineCaretIntersection.new. -/
def line_caret_intersection_spec (current_x word_width current_y line_height : ℚ)
    (max_width : Option ℚ) : LineCaretIntersection :=
  match max_width with
  | Option.none => .NoLineBreak (current_x + word_width) current_y
  | some max =>
    if current_x = 0 ∧ word_width > max then
      .NoLineBreak (current_x + word_width) current_y
    else if current_x + word_width > max then
      .LineBreak 0 (current_y + line_height)
    else
      .NoLineBreak (current_x + word_width) current_y

/-- The derived constant space_advance_px of position_words
(text_layout.rs line 167). -/
def space_advance_px (s : ShapedWords) (o : ResolvedTextLayoutOptions) : ℚ :=
  s.get_space_advance_px o.font_size_px

/-- The derived constant word_spacing_px of position_words
(text_layout.rs lines 168-173). -/
def word_spacing_px (s : ShapedWords) (o : ResolvedTextLayoutOptions) : ℚ :=
  space_advance_px s o * (o.word_spacing.getD DEFAULT_WORD_SPACING)

/-- The derived constant line_height_px of position_words
(text_layout.rs lines 174-179). -/
def line_height_px (s : ShapedWords) (o : ResolvedTextLayoutOptions) : ℚ :=
  space_advance_px s o * (o.line_height.getD DEFAULT_LINE_HEIGHT)

/-- The derived constant spacing_multiplier of position_words
(text_layout.rs lines 180-184). -/
def spacing_multiplier (o : ResolvedTextLayoutOptions) : ℚ :=
  o.letter_spacing.getD 0

/-- The mutable state of the token loop in position_words
(text_layout.rs lines 186-192). -/
structure PositionState where
  line_breaks : List InlineTextLine
  word_positions : List WordPosition
  line_caret_x : ℚ
  line_caret_y : ℚ
  shaped_word_idx : Nat
  last_shaped_word_word_idx : Nat
  last_line_start_idx : Nat
deriving DecidableEq, Repr

/-- One iteration of the token loop of position_words (text_layout.rs
lines 197-336) for the token word at index word_idx. -/
def position_word_step (shaped_words : ShapedWords)
    (o : ResolvedTextLayoutOptions) (last_word_idx : Nat)
    (st : PositionState) (p : Nat × Word) : PositionState :=
  let word_idx := p.1
  let word := p.2
  let font_size_px := o.font_size_px
  let lh := font_size_px + line_height_px shaped_words o
  match word.word_type with
  | Token.Word =>
    match shaped_words.items.get? st.shaped_word_idx with
    | Option.none => st
    | some shaped_word =>
      let letter_spacing_px :=
        spacing_multiplier o * ((shaped_word.number_of_glyphs - 1 : Nat) : ℚ)
      let shaped_word_width :=
        shaped_word.get_word_width shaped_words.font_metrics_units_per_em
          font_size_px + letter_spacing_px
      match LineCaretIntersection.new st.line_caret_x shaped_word_width
          st.line_caret_y lh o.max_horizontal_width with
      | .NoLineBreak new_x new_y =>
        { st with
          word_positions := st.word_positions ++
            [⟨some st.shaped_word_idx, ⟨st.line_caret_x, st.line_caret_y⟩,
              ⟨shaped_word_width, lh⟩⟩]
          line_caret_x := new_x
          line_caret_y := new_y
          shaped_word_idx := st.shaped_word_idx + 1
          last_shaped_word_word_idx := word_idx }
      | .LineBreak new_x new_y =>
        { st with
          line_breaks := st.line_breaks ++
            [⟨st.last_line_start_idx, max (word_idx - 1) st.last_line_start_idx,
              ⟨⟨0, st.line_caret_y⟩, ⟨st.line_caret_x, lh⟩⟩⟩]
          last_line_start_idx := word_idx
          word_positions := st.word_positions ++
            [⟨some st.shaped_word_idx, ⟨new_x, new_y⟩, ⟨shaped_word_width, lh⟩⟩]
          line_caret_x := new_x + shaped_word_width
          line_caret_y := new_y
          shaped_word_idx := st.shaped_word_idx + 1
          last_shaped_word_word_idx := word_idx }
  | Token.Return =>
    let st1 :=
      if word_idx ≠ last_word_idx then
        { st with
          line_breaks := st.line_breaks ++
            [⟨st.last_line_start_idx, max (word_idx - 1) st.last_line_start_idx,
              ⟨⟨0, st.line_caret_y⟩, ⟨st.line_caret_x, lh⟩⟩⟩]
          last_line_start_idx := word_idx + 1 }
      else st
    let st2 :=
      { st1 with
        word_positions := st1.word_positions ++
          [⟨Option.none, ⟨st1.line_caret_x, st1.line_caret_y⟩, ⟨0, lh⟩⟩] }
    if word_idx ≠ last_word_idx then
      { st2 with
        line_caret_x := 0
        line_caret_y := st2.line_caret_y + lh }
    else st2
  | Token.Space =>
    let x_advance := word_spacing_px shaped_words o
    match LineCaretIntersection.new st.line_caret_x x_advance
        st.line_caret_y lh o.max_horizontal_width with
    | .NoLineBreak new_x new_y =>
      { st with
        word_positions := st.word_positions ++
          [⟨Option.none, ⟨st.line_caret_x, st.line_caret_y⟩, ⟨x_advance, lh⟩⟩]
        line_caret_x := new_x
        line_caret_y := new_y }
    | .LineBreak new_x new_y =>
      let st1 :=
        if word_idx ≠ last_word_idx then
          { st with
            line_breaks := st.line_breaks ++
              [⟨st.last_line_start_idx, max (word_idx - 1) st.last_line_start_idx,
                ⟨⟨0, st.line_caret_y⟩, ⟨st.line_caret_x, lh⟩⟩⟩]
            last_line_start_idx := word_idx }
        else st
      let st2 :=
        { st1 with
          word_positions := st1.word_positions ++
            [⟨Option.none, ⟨st1.line_caret_x, st1.line_caret_y⟩, ⟨x_advance, lh⟩⟩] }
      if word_idx ≠ last_word_idx then
        { st2 with
          line_caret_x := new_x
          line_caret_y := new_y }
      else st2

/-- Embedding of text_layout.rs position_words, lines 158-368. -/
def position_words (words : Words) (shaped_words : ShapedWords)
    (o : ResolvedTextLayoutOptions) : WordPositions :=
  let font_size_px := o.font_size_px
  let lh := font_size_px + line_height_px shaped_words o
  let last_word_idx := words.items.length - 1
  let st := words.items.enum.foldl
    (position_word_step shaped_words o last_word_idx)
    ⟨[], [], o.leading.getD 0, lh, 0, 0, 0⟩
  let line_breaks := st.line_breaks ++
    [⟨st.last_line_start_idx, st.last_shaped_word_word_idx,
      ⟨⟨0, st.line_caret_y⟩, ⟨st.line_caret_x, lh⟩⟩⟩]
  let longest_line_width :=
    (line_breaks.map (fun line => line.bounds.size.width)).foldl max 0
  let content_size_y := (line_breaks.length : ℚ) * lh
  let content_size_x := o.max_horizontal_width.getD longest_line_width
  { text_layout_options := o
    trailing := st.line_caret_x
    number_of_shaped_words := st.shaped_word_idx
    number_of_lines := line_breaks.length
    content_size := ⟨content_size_x, content_size_y⟩
    word_positions := st.word_positions
    line_breaks := line_breaks }

/-- C7: LineCaretIntersection::new implements exactly the line
intersection rule of the spec, for all caret positions, word widths,
line heights and optional maximum widths (f32 arithmetic modelled
exactly; the two sides branch on identical comparisons, so rounding
plays no role in the equivalence). -/
theorem c7_line_caret_intersection_matches_spec
    (current_x word_width current_y line_height : ℚ)
    (max_width : Option ℚ) :
    LineCaretIntersection.new current_x word_width current_y line_height max_width
      = line_caret_intersection_spec current_x word_width current_y line_height
        max_width := by
  cases max_width <;> rfl

/-- Layout options used by the concrete positioning scenarios of the
spec: font_size_px 10, line_height 1.0, max_horizontal_width 100. -/
def scenario_opts : ResolvedTextLayoutOptions :=
  ⟨10, some 1, Option.none, Option.none, Option.none, some 100, Option.none⟩

/-- Tokens of the C5 scenario: a word shaped at 95 px, a space (advance
10 px), and a word shaped at 5 px, with units_per_em 1000. -/
def c5_words : Words :=
  ⟨[⟨0, 4, Token.Word⟩, ⟨4, 5, Token.Space⟩, ⟨5, 6, Token.Word⟩],
    "aaaa b".toList⟩

def c5_shaped : ShapedWords := ⟨[⟨[], 9500⟩, ⟨[], 500⟩], 9500, 1000, 1000, 800, -200, 0⟩

/-- C5 counterexample: in the scenario above the space at token index 1
triggers a line break (the following word starts at (0, 40) on the new
line), but its WordPosition is recorded at the pre-break caret
(95, 20) — its x is 95 and not the 0 the claim asserts. -/
theorem c5_space_position_counterexample :
    (position_words c5_words c5_shaped scenario_opts).word_positions.get? 1
      = some ⟨Option.none, ⟨95, 20⟩, ⟨10, 20⟩⟩
    ∧ (position_words c5_words c5_shaped scenario_opts).word_positions.get? 2
      = some ⟨some 1, ⟨0, 40⟩, ⟨5, 20⟩⟩
    ∧ ((95 : ℚ) = 0 → False) := by
  refine ⟨?_, ?_, by norm_num⟩ <;>
    norm_num [position_words, position_word_step, c5_words, c5_shaped,
      scenario_opts, LineCaretIntersection.new, line_height_px,
      space_advance_px, word_spacing_px, spacing_multiplier,
      ShapedWords.get_space_advance_px, ShapedWord.get_word_width,
      ShapedWord.number_of_glyphs, DEFAULT_LINE_HEIGHT,
      DEFAULT_WORD_SPACING, List.enum, List.enumFrom]

theorem position_word_step_nonword_length (shaped : ShapedWords)
    (o : ResolvedTextLayoutOptions) (lw : Nat) (st : PositionState)
    (p : Nat × Word) (h : p.2.word_type ≠ Token.Word) :
    (position_word_step shaped o lw st p).word_positions.length
      = st.word_positions.length + 1
    ∧ (position_word_step shaped o lw st p).shaped_word_idx
      = st.shaped_word_idx := by
  rcases p with ⟨idx, tok⟩
  rcases htok : tok.word_type with _ | _ | _
  · exact absurd htok h
  · simp only [position_word_step, htok]
    constructor <;> (split <;> simp)
  · simp only [position_word_step, htok]
    constructor <;> (split <;> (try split) <;> simp)

theorem position_word_step_word_length (shaped : ShapedWords)
    (o : ResolvedTextLayoutOptions) (lw : Nat) (st : PositionState)
    (p : Nat × Word) (sw : ShapedWord) (h : p.2.word_type = Token.Word)
    (hs : shaped.items.get? st.shaped_word_idx = some sw) :
    (position_word_step shaped o lw st p).word_positions.length
      = st.word_positions.length + 1
    ∧ (position_word_step shaped o lw st p).shaped_word_idx
      = st.shaped_word_idx + 1 := by
  rcases p with ⟨idx, tok⟩
  rcases htok : tok.word_type with _ | _ | _
  · simp only [position_word_step, htok, hs]
    constructor <;> (split <;> simp)
  · exact absurd h (by simp [htok])
  · exact absurd h (by simp [htok])

theorem position_foldl_length (shaped : ShapedWords)
    (o : ResolvedTextLayoutOptions) (lw : Nat) :
    ∀ (l : List (Nat × Word)) (st : PositionState),
    st.shaped_word_idx
        + ((l.map Prod.snd).filter (fun t => t.word_type = Token.Word)).length
      ≤ shaped.items.length →
    (l.foldl (position_word_step shaped o lw) st).word_positions.length
        = st.word_positions.length + l.length
    ∧ (l.foldl (position_word_step shaped o lw) st).shaped_word_idx
        = st.shaped_word_idx
          + ((l.map Prod.snd).filter (fun t => t.word_type = Token.Word)).length := by
  intro l
  induction l with
  | nil => intro st _; simp
  | cons q qs ih =>
    intro st hle
    by_cases hq : q.2.word_type = Token.Word
    · have hlt : st.shaped_word_idx < shaped.items.length := by
        simp only [List.map_cons, List.filter_cons, hq] at hle
        simp at hle
        omega
      have hsome : shaped.items.get? st.shaped_word_idx
          = some (shaped.items.get ⟨st.shaped_word_idx, hlt⟩) :=
        List.get?_eq_get hlt
      obtain ⟨hl1, hi1⟩ := position_word_step_word_length shaped o lw st q _ hq hsome
      have hle' : (position_word_step shaped o lw st q).shaped_word_idx
          + ((qs.map Prod.snd).filter (fun t => t.word_type = Token.Word)).length
          ≤ shaped.items.length := by
        simp only [List.map_cons, List.filter_cons, hq] at hle
        simp at hle
        omega
      obtain ⟨ihl, ihi⟩ := ih _ hle'
      refine ⟨?_, ?_⟩
      · simp only [List.foldl_cons, ihl, hl1, List.length_cons]
        omega
      · simp only [List.foldl_cons, ihi, hi1, List.map_cons, List.filter_cons, hq]
        simp
        omega
    · obtain ⟨hl1, hi1⟩ := position_word_step_nonword_length shaped o lw st q hq
      have hle' : (position_word_step shaped o lw st q).shaped_word_idx
          + ((qs.map Prod.snd).filter (fun t => t.word_type = Token.Word)).length
          ≤ shaped.items.length := by
        simp only [List.map_cons, List.filter_cons] at hle
        rw [hi1]
        split at hle <;> simp_all
      obtain ⟨ihl, ihi⟩ := ih _ hle'
      refine ⟨?_, ?_⟩
      · simp only [List.foldl_cons, ihl, hl1, List.length_cons]
        omega
      · simp only [List.foldl_cons, ihi, hi1, List.map_cons, List.filter_cons]
        split <;> simp_all

/-- C5 amended: when the shaped words cover every Word token, every
token yields exactly one WordPosition entry; and a Space token whose
placement triggers a line break records its WordPosition at the
pre-break caret (line_caret_x, line_caret_y) — not at x = 0 on the new
line as the claim states (the caret itself then resets for subsequent
tokens when the space is not the last token). -/
theorem c5_one_position_per_token_space_at_old_caret :
    (∀ (words : Words) (shaped : ShapedWords) (o : ResolvedTextLayoutOptions),
      ((words.items.filter (fun t => t.word_type = Token.Word)).length
        ≤ shaped.items.length) →
      (position_words words shaped o).word_positions.length = words.items.length)
    ∧ (∀ (shaped : ShapedWords) (o : ResolvedTextLayoutOptions)
        (lw : Nat) (st : PositionState) (idx : Nat) (tok : Word) (nx ny : ℚ),
      tok.word_type = Token.Space →
      LineCaretIntersection.new st.line_caret_x (word_spacing_px shaped o)
          st.line_caret_y (o.font_size_px + line_height_px shaped o)
          o.max_horizontal_width = .LineBreak nx ny →
      (position_word_step shaped o lw st (idx, tok)).word_positions
        = st.word_positions ++
          [⟨Option.none, ⟨st.line_caret_x, st.line_caret_y⟩,
            ⟨word_spacing_px shaped o,
              o.font_size_px + line_height_px shaped o⟩⟩]) := by
  constructor
  · intro words shaped o h
    have key := position_foldl_length shaped o (words.items.length - 1)
      words.items.enum ⟨[], [], o.leading.getD 0,
        o.font_size_px + line_height_px shaped o, 0, 0, 0⟩
      (by simpa [List.enum_map_snd] using h)
    simpa [position_words, List.enum_length] using key.1
  · intro shaped o lw st idx tok nx ny htok hbreak
    simp only [position_word_step, htok, hbreak]
    split <;> simp

/-- C5 witness: the count part of the amended theorem applied to the
concrete three-token scenario (its two shaped words cover its two Word
tokens), and the space part applied to the caret state just before the
space of that scenario. -/
theorem c5_one_position_per_token_witness :
    (position_words c5_words c5_shaped scenario_opts).word_positions.length = 3
    ∧ (position_word_step c5_shaped scenario_opts 2
        ⟨[], [⟨some 0, ⟨0, 20⟩, ⟨95, 20⟩⟩], 95, 20, 1, 0, 0⟩
        (1, ⟨4, 5, Token.Space⟩)).word_positions
      = [⟨some 0, ⟨0, 20⟩, ⟨95, 20⟩⟩] ++
        [⟨Option.none, ⟨95, 20⟩,
          ⟨word_spacing_px c5_shaped scenario_opts,
            scenario_opts.font_size_px
              + line_height_px c5_shaped scenario_opts⟩⟩] := by
  constructor
  · exact c5_one_position_per_token_space_at_old_caret.1 c5_words c5_shaped
      scenario_opts (by decide)
  · exact c5_one_position_per_token_space_at_old_caret.2 c5_shaped scenario_opts
      2 ⟨[], [⟨some 0, ⟨0, 20⟩, ⟨95, 20⟩⟩], 95, 20, 1, 0, 0⟩ 1
      ⟨4, 5, Token.Space⟩ 0 40 rfl
      (by norm_num [LineCaretIntersection.new, word_spacing_px,
        space_advance_px, line_height_px, ShapedWords.get_space_advance_px,
        c5_shaped, scenario_opts, DEFAULT_WORD_SPACING, DEFAULT_LINE_HEIGHT])

/-- The single over-wide word of the C6 scenario: shaped width 200 px at
units_per_em 1000 and font size 10. -/
def c6_words : Words := ⟨[⟨0, 11, Token.Word⟩], "wwwwwwwwwww".toList⟩

def c6_shaped : ShapedWords := ⟨[⟨[], 20000⟩], 20000, 1000, 1000, 800, -200, 0⟩

/-- C6 counterexample: with max_horizontal_width 100 and a single word
shaped at 200 px, content_size.width is 100 — the claim that it is at
least 200 is false, because position_words sets content_size.width to
max_horizontal_width whenever that option is present. -/
theorem c6_content_width_counterexample :
    (position_words c6_words c6_shaped scenario_opts).content_size.width = 100
    ∧ ¬ (200 : ℚ) ≤
      (position_words c6_words c6_shaped scenario_opts).content_size.width := by
  have h : (position_words c6_words c6_shaped scenario_opts).content_size.width
      = 100 := by
    norm_num [position_words, position_word_step, c6_words, c6_shaped,
      scenario_opts, LineCaretIntersection.new, line_height_px,
      space_advance_px, word_spacing_px, spacing_multiplier,
      ShapedWords.get_space_advance_px, ShapedWord.get_word_width,
      ShapedWord.number_of_glyphs, DEFAULT_LINE_HEIGHT,
      DEFAULT_WORD_SPACING, List.enum, List.enumFrom]
  exact ⟨h, by rw [h]; norm_num⟩

/-- C6 amended: in the over-wide-word scenario the layout is a single
line and the 200 px width shows up as that line's bounds width (which is
at least 200), while content_size is (max_horizontal_width, number of
lines times (font_size_px + line_height_px)) = (100, 20): the content
width is clamped to max_horizontal_width when that option is set, rather
than being at least 200. -/
theorem c6_over_wide_word_single_line :
    (position_words c6_words c6_shaped scenario_opts).number_of_lines = 1
    ∧ (position_words c6_words c6_shaped scenario_opts).line_breaks
      = [⟨0, 0, ⟨⟨0, 20⟩, ⟨200, 20⟩⟩⟩]
    ∧ (position_words c6_words c6_shaped scenario_opts).content_size
      = ⟨100, 20⟩ := by
  refine ⟨?_, ?_, ?_⟩ <;>
    norm_num [position_words, position_word_step, c6_words, c6_shaped,
      scenario_opts, LineCaretIntersection.new, line_height_px,
      space_advance_px, word_spacing_px, spacing_multiplier,
      ShapedWords.get_space_advance_px, ShapedWord.get_word_width,
      ShapedWord.number_of_glyphs, DEFAULT_LINE_HEIGHT,
      DEFAULT_WORD_SPACING, List.enum, List.enumFrom]

/-- The pairwise relation of the monotonic-caret invariant: two
successive WordPosition entries on the same line (equal y) have
non-decreasing x. -/
abbrev caret_rel (a b : WordPosition) : Prop :=
  a.position.y = b.position.y → a.position.x ≤ b.position.x

/-- The loop invariant for the monotonic-caret property: the positions
recorded so far are pairwise caret_rel-chained, and the last recorded
position lies at or below the current caret line, with x at most the
caret x when on the caret line. -/
abbrev CaretInv (st : PositionState) : Prop :=
  List.Chain' caret_rel st.word_positions ∧
  ∀ l ∈ st.word_positions.getLast?, l.position.y ≤ st.line_caret_y ∧
    (l.position.y = st.line_caret_y → l.position.x ≤ st.line_caret_x)

theorem chain_push {l : List WordPosition} {e : WordPosition}
    (hC : List.Chain' caret_rel l)
    (hlast : ∀ a ∈ l.getLast?, caret_rel a e) :
    List.Chain' caret_rel (l ++ [e]) := by
  refine List.Chain'.append hC (List.chain'_singleton e) ?_
  intro x hx y hy
  simp only [List.head?_cons, Option.mem_def, Option.some.injEq] at hy
  subst hy
  exact hlast x hx

theorem getLast_append_singleton {l : List WordPosition} {e : WordPosition} :
    (l ++ [e]).getLast? = some e :=
  List.getLast?_concat l

theorem new_no_break_eq {x w y lh : ℚ} {m : Option ℚ} {nx ny : ℚ}
    (h : LineCaretIntersection.new x w y lh m = .NoLineBreak nx ny) :
    nx = x + w ∧ ny = y := by
  cases m with
  | none => simp only [LineCaretIntersection.new] at h; cases h; exact ⟨rfl, rfl⟩
  | some max =>
    simp only [LineCaretIntersection.new] at h
    by_cases h1 : x = 0 ∧ max < w
    · rw [if_pos h1] at h; cases h; exact ⟨rfl, rfl⟩
    · rw [if_neg h1] at h
      by_cases h2 : x + w > max
      · rw [if_pos h2] at h; cases h
      · rw [if_neg h2] at h; cases h; exact ⟨rfl, rfl⟩

theorem new_break_eq {x w y lh : ℚ} {m : Option ℚ} {nx ny : ℚ}
    (h : LineCaretIntersection.new x w y lh m = .LineBreak nx ny) :
    nx = 0 ∧ ny = y + lh := by
  cases m with
  | none => simp only [LineCaretIntersection.new] at h; cases h
  | some max =>
    simp only [LineCaretIntersection.new] at h
    by_cases h1 : x = 0 ∧ max < w
    · rw [if_pos h1] at h; cases h
    · rw [if_neg h1] at h
      by_cases h2 : x + w > max
      · rw [if_pos h2] at h; cases h; exact ⟨rfl, rfl⟩
      · rw [if_neg h2] at h; cases h

theorem space_advance_px_nonneg (s : ShapedWords) (o : ResolvedTextLayoutOptions)
    (hfs : 0 ≤ o.font_size_px) : 0 ≤ space_advance_px s o := by
  unfold space_advance_px ShapedWords.get_space_advance_px
  exact mul_nonneg (div_nonneg (Nat.cast_nonneg _) (Nat.cast_nonneg _)) hfs

theorem word_spacing_px_nonneg (s : ShapedWords) (o : ResolvedTextLayoutOptions)
    (hfs : 0 ≤ o.font_size_px)
    (hws : 0 ≤ o.word_spacing.getD DEFAULT_WORD_SPACING) :
    0 ≤ word_spacing_px s o :=
  mul_nonneg (space_advance_px_nonneg s o hfs) hws

theorem shaped_word_width_nonneg (sw : ShapedWord) (s : ShapedWords)
    (o : ResolvedTextLayoutOptions) (hfs : 0 ≤ o.font_size_px)
    (hls : 0 ≤ spacing_multiplier o) :
    0 ≤ sw.get_word_width s.font_metrics_units_per_em o.font_size_px
      + spacing_multiplier o * ((sw.number_of_glyphs - 1 : Nat) : ℚ) := by
  unfold ShapedWord.get_word_width
  exact add_nonneg
    (mul_nonneg (div_nonneg (Nat.cast_nonneg _) (Nat.cast_nonneg _)) hfs)
    (mul_nonneg hls (Nat.cast_nonneg _))

/-- Pushing an entry at the current caret preserves the invariant,
given the stated relation of the new caret (nx, ny) to the old one. -/
theorem caret_inv_push_at_caret {st : PositionState} (hinv : CaretInv st)
    (e : WordPosition) (nx ny : ℚ)
    (hex : e.position.x = st.line_caret_x) (hey : e.position.y = st.line_caret_y)
    (hcy : st.line_caret_y ≤ ny)
    (hcx : ny = st.line_caret_y → st.line_caret_x ≤ nx) :
    List.Chain' caret_rel (st.word_positions ++ [e]) ∧
    ∀ l ∈ (st.word_positions ++ [e]).getLast?, l.position.y ≤ ny ∧
      (l.position.y = ny → l.position.x ≤ nx) := by
  obtain ⟨hC, hL⟩ := hinv
  refine ⟨chain_push hC ?_, ?_⟩
  · intro a ha hy
    rw [hey] at hy
    rw [hex]
    exact (hL a ha).2 hy
  · intro l hl
    rw [getLast_append_singleton] at hl
    simp only [Option.mem_def, Option.some.injEq] at hl
    subst hl
    refine ⟨hey ▸ hcy, fun hy => ?_⟩
    rw [hex]
    rw [hey] at hy
    exact hcx hy.symm

theorem position_word_step_caret_inv (shaped : ShapedWords)
    (o : ResolvedTextLayoutOptions) (lw : Nat)
    (hfs : 0 ≤ o.font_size_px)
    (hls : 0 ≤ spacing_multiplier o)
    (hws : 0 ≤ o.word_spacing.getD DEFAULT_WORD_SPACING)
    (hlh : 0 < o.font_size_px + line_height_px shaped o)
    (st : PositionState) (p : Nat × Word) (hinv : CaretInv st) :
    CaretInv (position_word_step shaped o lw st p) := by
  obtain ⟨hC, hL⟩ := hinv
  rcases p with ⟨idx, tok⟩
  rcases htok : tok.word_type with _ | _ | _
  · -- Word token
    rcases hs : shaped.items.get? st.shaped_word_idx with _ | sw
    · simp only [position_word_step, htok, hs]
      exact ⟨hC, hL⟩
    · have hw0 := shaped_word_width_nonneg sw shaped o hfs hls
      rcases hcut : LineCaretIntersection.new st.line_caret_x
          (sw.get_word_width shaped.font_metrics_units_per_em o.font_size_px
            + spacing_multiplier o * ((sw.number_of_glyphs - 1 : Nat) : ℚ))
          st.line_caret_y (o.font_size_px + line_height_px shaped o)
          o.max_horizontal_width with ⟨nx, ny⟩ | ⟨nx, ny⟩
      · obtain ⟨hnx, hny⟩ := new_no_break_eq hcut
        subst hnx; subst hny
        simp only [position_word_step, htok, hs, hcut]
        exact caret_inv_push_at_caret ⟨hC, hL⟩ _ _ _ rfl rfl (le_refl _)
          (fun _ => le_add_of_nonneg_right hw0)
      · obtain ⟨hnx, hny⟩ := new_break_eq hcut
        subst hnx; subst hny
        simp only [position_word_step, htok, hs, hcut]
        refine ⟨chain_push hC ?_, ?_⟩
        · intro a ha hy
          exfalso
          have hy' : a.position.y
              = st.line_caret_y + (o.font_size_px + line_height_px shaped o) := hy
          have hay := (hL a ha).1
          linarith
        · intro l hl
          rw [getLast_append_singleton] at hl
          simp only [Option.mem_def, Option.some.injEq] at hl
          subst hl
          exact ⟨le_refl _, fun _ => le_add_of_nonneg_right hw0⟩
  · -- Return token
    by_cases hil : idx ≠ lw
    · simp only [position_word_step, htok, if_pos hil]
      refine ⟨chain_push hC ?_, ?_⟩
      · intro a ha hy
        have hy' : a.position.y = st.line_caret_y := hy
        exact (hL a ha).2 hy'
      · intro l hl
        rw [getLast_append_singleton] at hl
        simp only [Option.mem_def, Option.some.injEq] at hl
        subst hl
        refine ⟨le_add_of_nonneg_right hlh.le, fun hy => ?_⟩
        exfalso
        have hy' : st.line_caret_y
            = st.line_caret_y + (o.font_size_px + line_height_px shaped o) := hy
        linarith
    · simp only [position_word_step, htok, if_neg hil]
      refine ⟨chain_push hC ?_, ?_⟩
      · intro a ha hy
        have hy' : a.position.y = st.line_caret_y := hy
        exact (hL a ha).2 hy'
      · intro l hl
        rw [getLast_append_singleton] at hl
        simp only [Option.mem_def, Option.some.injEq] at hl
        subst hl
        exact ⟨le_refl _, fun _ => le_refl _⟩
  · -- Space token
    have hadv := word_spacing_px_nonneg shaped o hfs hws
    rcases hcut : LineCaretIntersection.new st.line_caret_x
        (word_spacing_px shaped o) st.line_caret_y
        (o.font_size_px + line_height_px shaped o)
        o.max_horizontal_width with ⟨nx, ny⟩ | ⟨nx, ny⟩
    · obtain ⟨hnx, hny⟩ := new_no_break_eq hcut
      subst hnx; subst hny
      simp only [position_word_step, htok, hcut]
      exact caret_inv_push_at_caret ⟨hC, hL⟩ _ _ _ rfl rfl (le_refl _)
        (fun _ => le_add_of_nonneg_right hadv)
    · obtain ⟨hnx, hny⟩ := new_break_eq hcut
      subst hnx; subst hny
      by_cases hil : idx ≠ lw
      · simp only [position_word_step, htok, hcut, if_pos hil]
        refine ⟨chain_push hC ?_, ?_⟩
        · intro a ha hy
          have hy' : a.position.y = st.line_caret_y := hy
          exact (hL a ha).2 hy'
        · intro l hl
          rw [getLast_append_singleton] at hl
          simp only [Option.mem_def, Option.some.injEq] at hl
          subst hl
          refine ⟨le_add_of_nonneg_right hlh.le, fun hy => ?_⟩
          exfalso
          have hy' : st.line_caret_y
              = st.line_caret_y + (o.font_size_px + line_height_px shaped o) := hy
          linarith
      · simp only [position_word_step, htok, hcut, if_neg hil]
        refine ⟨chain_push hC ?_, ?_⟩
        · intro a ha hy
          have hy' : a.position.y = st.line_caret_y := hy
          exact (hL a ha).2 hy'
        · intro l hl
          rw [getLast_append_singleton] at hl
          simp only [Option.mem_def, Option.some.injEq] at hl
          subst hl
          exact ⟨le_refl _, fun _ => le_refl _⟩

theorem caret_inv_foldl (shaped : ShapedWords) (o : ResolvedTextLayoutOptions)
    (lw : Nat) (hfs : 0 ≤ o.font_size_px) (hls : 0 ≤ spacing_multiplier o)
    (hws : 0 ≤ o.word_spacing.getD DEFAULT_WORD_SPACING)
    (hlh : 0 < o.font_size_px + line_height_px shaped o) :
    ∀ (l : List (Nat × Word)) (st : PositionState), CaretInv st →
      CaretInv (l.foldl (position_word_step shaped o lw) st) := by
  intro l
  induction l with
  | nil => intro st h; simpa using h
  | cons q qs ih =>
    intro st h
    simp only [List.foldl_cons]
    exact ih _ (position_word_step_caret_inv shaped o lw hfs hls hws hlh st q h)

/-- C8 amended: the monotonic-caret invariant holds for all inputs whose
effective advances are nonnegative and whose per-line advance is
positive: for nonnegative font_size_px, nonnegative letter-spacing
multiplier, nonnegative word-spacing multiplier and positive
font_size_px + line_height_px, any two consecutive WordPosition entries
with equal y (the same line) satisfy x_prev ≤ x_next.  Without such
hypotheses the claim is false as stated, see the counterexample with
negative letter spacing. -/
theorem c8_monotone_caret (words : Words) (shaped : ShapedWords)
    (o : ResolvedTextLayoutOptions)
    (hfs : 0 ≤ o.font_size_px)
    (hls : 0 ≤ spacing_multiplier o)
    (hws : 0 ≤ o.word_spacing.getD DEFAULT_WORD_SPACING)
    (hlh : 0 < o.font_size_px + line_height_px shaped o)
    (i : Nat) (a b : WordPosition)
    (ha : (position_words words shaped o).word_positions.get? i = some a)
    (hb : (position_words words shaped o).word_positions.get? (i + 1) = some b)
    (hy : a.position.y = b.position.y) :
    a.position.x ≤ b.position.x := by
  have hinv : CaretInv (words.items.enum.foldl
      (position_word_step shaped o (words.items.length - 1))
      ⟨[], [], o.leading.getD 0,
        o.font_size_px + line_height_px shaped o, 0, 0, 0⟩) :=
    caret_inv_foldl shaped o _ hfs hls hws hlh _ _
      ⟨List.chain'_nil, by simp⟩
  have hchain : List.Chain' caret_rel
      (position_words words shaped o).word_positions := by
    simpa [position_words] using hinv.1
  obtain ⟨hia, hga⟩ := List.get?_eq_some.mp ha
  obtain ⟨hib, hgb⟩ := List.get?_eq_some.mp hb
  have hstep := List.chain'_iff_get.mp hchain i (by omega)
  rw [hga, hgb] at hstep
  exact hstep hy


/-- A single glyph with Placement.none, so that letter spacing applies
between glyphs of the C8 scenarios. -/
def c8_glyph : GlyphInfo :=
  ⟨⟨⟨[], 1, 0, GlyphOrigin.direct, false, false, false, false, false,
    Option.none⟩, 0, Placement.none⟩, ⟨500, 0, 0⟩⟩

/-- Two word tokens, each shaped to two glyphs of total width 10 px at
font size 10 and units_per_em 1000. -/
def c8_words : Words :=
  ⟨[⟨0, 2, Token.Word⟩, ⟨3, 5, Token.Word⟩], "aa bb".toList⟩

def c8_shaped : ShapedWords :=
  ⟨[⟨[c8_glyph, c8_glyph], 1000⟩, ⟨[c8_glyph, c8_glyph], 1000⟩],
    1000, 1000, 1000, 800, -200, 0⟩

/-- Options with letter_spacing -100: each two-glyph word gets an
effective width of 10 - 100 = -90 px. -/
def c8_neg_opts : ResolvedTextLayoutOptions :=
  ⟨10, some 1, some (-100), Option.none, Option.none, Option.none, Option.none⟩

/-- Options identical to the negative-spacing ones but with no letter
spacing, used by the witness. -/
def c8_pos_opts : ResolvedTextLayoutOptions :=
  ⟨10, some 1, Option.none, Option.none, Option.none, Option.none, Option.none⟩

/-- C8 counterexample: with letter_spacing = -100 (a legal input to
position_words) the second word lands at x = -90 on the same line
(y = 20) as the first word at x = 0, so consecutive same-line entries
do NOT satisfy x_prev ≤ x_next. -/
theorem c8_monotone_caret_counterexample :
    (position_words c8_words c8_shaped c8_neg_opts).word_positions.get? 0
      = some ⟨some 0, ⟨0, 20⟩, ⟨-90, 20⟩⟩
    ∧ (position_words c8_words c8_shaped c8_neg_opts).word_positions.get? 1
      = some ⟨some 1, ⟨-90, 20⟩, ⟨-90, 20⟩⟩
    ∧ ¬ ((0 : ℚ) ≤ (-90 : ℚ)) := by
  refine ⟨?_, ?_, by norm_num⟩ <;>
    norm_num [position_words, position_word_step, c8_words, c8_shaped,
      c8_neg_opts, c8_glyph, LineCaretIntersection.new, line_height_px,
      space_advance_px, word_spacing_px, spacing_multiplier,
      ShapedWords.get_space_advance_px, ShapedWord.get_word_width,
      ShapedWord.number_of_glyphs, DEFAULT_LINE_HEIGHT,
      DEFAULT_WORD_SPACING, List.enum, List.enumFrom]

/-- C8 witness: the amended theorem applied to the two-word scenario
with no letter spacing; the first two entries share y = 20 and have
x = 0 and x = 10. -/
theorem c8_monotone_caret_witness :
    ((⟨some 0, ⟨0, 20⟩, ⟨10, 20⟩⟩ : WordPosition)).position.x ≤
      ((⟨some 1, ⟨10, 20⟩, ⟨10, 20⟩⟩ : WordPosition)).position.x :=
  c8_monotone_caret c8_words c8_shaped c8_pos_opts
    (by norm_num [c8_pos_opts])
    (by norm_num [spacing_multiplier, c8_pos_opts])
    (by norm_num [c8_pos_opts, DEFAULT_WORD_SPACING])
    (by norm_num [c8_pos_opts, line_height_px, space_advance_px,
      ShapedWords.get_space_advance_px, c8_shaped, DEFAULT_LINE_HEIGHT])
    0 _ _
    (by norm_num [position_words, position_word_step, c8_words, c8_shaped,
      c8_pos_opts, c8_glyph, LineCaretIntersection.new, line_height_px,
      space_advance_px, word_spacing_px, spacing_multiplier,
      ShapedWords.get_space_advance_px, ShapedWord.get_word_width,
      ShapedWord.number_of_glyphs, DEFAULT_LINE_HEIGHT,
      DEFAULT_WORD_SPACING, List.enum, List.enumFrom])
    (by norm_num [position_words, position_word_step, c8_words, c8_shaped,
      c8_pos_opts, c8_glyph, LineCaretIntersection.new, line_height_px,
      space_advance_px, word_spacing_px, spacing_multiplier,
      ShapedWords.get_space_advance_px, ShapedWord.get_word_width,
      ShapedWord.number_of_glyphs, DEFAULT_LINE_HEIGHT,
      DEFAULT_WORD_SPACING, List.enum, List.enumFrom])
    rfl

/-! Part 4: shaper driver (text_shaping.rs).  The allsorts OpenType
engine (gsub_apply, Info::init_from_glyphs, gpos_apply) is an external
collaborator of the repository; it is abstracted as an explicit
environment of three functions, the two table applications being
fallible exactly as in the source (they return a result whose error is
turned into None by the ok() calls).  Everything else — glyph mapping
with variation-selector lookahead, the advance/size lookup and the
filter that drops glyphs without a decoded glyf record — is embedded
from text_shaping.rs. -/

/-- Mirror of text_shaping.rs OwnedGlyphBoundingBox. -/
structure OwnedGlyphBoundingBox where
  max_x : Int
  max_y : Int
  min_x : Int
  min_y : Int
deriving DecidableEq, Repr

/-- Mirror of text_shaping.rs OwnedGlyph (the optional outline payload
is not read by any function under verification and is omitted). -/
structure OwnedGlyph where
  bounding_box : OwnedGlyphBoundingBox
  horz_advance : Nat
deriving DecidableEq, Repr

/-- The slice of css.rs FontMetrics that the shaping and word-shaping
code reads: units_per_em from the head table and the three unscaled
vertical metrics resolved by the use_typo_metrics rule. -/
structure FontMetrics where
  units_per_em : Nat
  ascender_unscaled : Int
  descender_unscaled : Int
  line_gap_unscaled : Int
deriving DecidableEq, Repr

/-- The slice of text_shaping.rs ParsedFont read by shape and
shape_words: the decoded glyf records keyed by glyph id (the BTreeMap is
modelled as an association list), the cached space width, the cmap
subtable modelled as its lookup function (map_glyph returning Ok(Some)
becomes some, everything else none, as in lookup_glyph_index), and the
metrics. -/
structure ParsedFont where
  font_metrics : FontMetrics
  num_glyphs : Nat
  glyph_records_decoded : List (Nat × OwnedGlyph)
  space_width : Option Nat
  cmap : Nat → Option Nat

/-- Mirror of ParsedFont::lookup_glyph_index. -/
def ParsedFont.lookup_glyph_index (f : ParsedFont) (c : Nat) : Option Nat :=
  f.cmap c

/-- Mirror of ParsedFont::get_space_width. -/
def ParsedFont.get_space_width (f : ParsedFont) : Option Nat :=
  f.space_width

/-- Mirror of ParsedFont::get_horizontal_advance: the decoded record's
advance, or 0 (unwrap_or_default) when the glyph id has no record. -/
def ParsedFont.get_horizontal_advance (f : ParsedFont) (glyph_index : Nat) : Nat :=
  ((f.glyph_records_decoded.lookup glyph_index).map
    (fun gi => gi.horz_advance)).getD 0

/-- Mirror of ParsedFont::get_glyph_size: None when the glyph id has no
decoded record. -/
def ParsedFont.get_glyph_size (f : ParsedFont) (glyph_index : Nat) :
    Option (Int × Int) :=
  (f.glyph_records_decoded.lookup glyph_index).map fun g =>
    (g.bounding_box.max_x - g.bounding_box.min_x,
      g.bounding_box.max_y - g.bounding_box.min_y)

/-- Mirror of allsorts unicode VariationSelector::try_from over chars:
U+FE00..U+FE02 and U+FE0E..U+FE0F. -/
def variation_selector_from_char (c : Char) : Option VariationSelector :=
  if c = '︀' then some .vs01
  else if c = '︁' then some .vs02
  else if c = '︂' then some .vs03
  else if c = '︎' then some .vs15
  else if c = '️' then some .vs16
  else Option.none

/-- Mirror of text_shaping.rs make_raw_glyph. -/
def make_raw_glyph (ch : Char) (glyph_index : Nat)
    (variation : Option VariationSelector) : RawGlyph :=
  ⟨[ch], glyph_index, 0, .char ch, false, false, false, false, false, variation⟩

/-- The glyph-mapping loop of shape (text_shaping.rs lines 336-351):
variation selectors are skipped (they were attached to the preceding
character by the one-character lookahead), every other character maps
through cmap with glyph id 0 as the fallback. -/
def map_glyphs (font : ParsedFont) : List Char → List RawGlyph
  | [] => []
  | ch :: rest =>
    match variation_selector_from_char ch with
    | some _ => map_glyphs font rest
    | Option.none =>
      let vs := rest.head?.bind variation_selector_from_char
      let glyph_index := (font.lookup_glyph_index ch.toNat).getD 0
      make_raw_glyph ch glyph_index vs :: map_glyphs font rest

/-- The abstract allsorts engine: GSUB application (receiving the
dotted-circle glyph id), positioning-state initialization, and GPOS
application.  The two applications may fail, as in the source where
gsub_apply(...).ok()? and gpos_apply(...).ok()? abort shaping. -/
structure ShapingEnv where
  gsub_apply : Nat → List RawGlyph → Option (List RawGlyph)
  init_from_glyphs : List RawGlyph → List Info
  gpos_apply : List Info → Option (List Info)

/-- Mirror of text_shaping.rs ShapedTextBufferUnsized. -/
structure ShapedTextBufferUnsized where
  infos : List GlyphInfo
deriving DecidableEq, Repr

/-- The Rust cast of an i32 to usize (64-bit), wrapping modulo 2^64. -/
def usize_of_i32 (i : Int) : Nat := (i % (2 ^ 64 : Int)).toNat

/-- Mirror of ShapedTextBufferUnsized::get_word_visual_width_unscaled:
the sum over all glyphs of (advance_x + kerning) cast to usize. -/
def ShapedTextBufferUnsized.get_word_visual_width_unscaled
    (b : ShapedTextBufferUnsized) : Nat :=
  (b.infos.map (fun s => usize_of_i32 s.get_x_advance_total_unscaled)).sum

/-- The codepoint of the dotted-circle substitute glyph U+25CC. -/
def DOTTED_CIRCLE : Nat := 0x25CC

/-- Embedding of the private fn shape (text_shaping.rs lines 326-405):
map the characters to a raw glyph run, apply GSUB (abort on failure),
initialize positioning state, apply GPOS (abort on failure), then look
up advance and glyph size for every positioned glyph, silently dropping
any glyph whose id has no decoded glyf record (the question mark on
get_glyph_size inside filter_map). -/
def shape (font : ParsedFont) (env : ShapingEnv) (text : List Char) :
    Option ShapedTextBufferUnsized := do
  let glyphs := map_glyphs font text
  let dotted_circle_index := (font.lookup_glyph_index DOTTED_CIRCLE).getD 0
  let glyphs ← env.gsub_apply dotted_circle_index glyphs
  let infos := env.init_from_glyphs glyphs
  let infos ← env.gpos_apply infos
  some ⟨infos.filterMap (fun info =>
    let glyph_index := info.glyph.glyph_index
    let adv_x := font.get_horizontal_advance glyph_index
    (font.get_glyph_size glyph_index).map (fun sz =>
      ⟨info, ⟨adv_x, sz.1, sz.2⟩⟩))⟩

/-- Mirror of ParsedFont::shape: shape(self, text).unwrap_or_default(),
where the default buffer has no glyphs. -/
def ParsedFont.shape (font : ParsedFont) (env : ShapingEnv)
    (text : List Char) : ShapedTextBufferUnsized :=
  (Azul.shape font env text).getD ⟨[]⟩

/-- The characters of one word token: the byte-range slice of the
normalized string (words.internal_str[word.index].chars() in
shape_words). -/
def slice_chars_by_bytes : List Char → Nat → Nat → Nat → List Char
  | [], _, _, _ => []
  | c :: cs, pos, a, b =>
    let rest := slice_chars_by_bytes cs (pos + c.utf8Size) a b
    if a ≤ pos ∧ pos + c.utf8Size ≤ b then c :: rest else rest

/-- Embedding of text_layout.rs shape_words, lines 116-154: shape every
Word token; the running longest-word maximum is the fold of max over the
shaped widths starting from 0. -/
def shape_words (words : Words) (font : ParsedFont) (env : ShapingEnv) :
    ShapedWords :=
  let space_advance := font.get_space_width.getD font.font_metrics.units_per_em
  let shaped_words := (words.items.filter
    (fun w => w.word_type = Token.Word)).map
    (fun word =>
      let chars := slice_chars_by_bytes words.internal_str 0
        word.index_start word.index_stop
      let shaped_word := font.shape env chars
      ShapedWord.mk shaped_word.infos
        shaped_word.get_word_visual_width_unscaled)
  let longest_word_width := (shaped_words.map
    (fun w => w.word_width)).foldl max 0
  ⟨shaped_words, longest_word_width, space_advance,
    font.font_metrics.units_per_em, font.font_metrics.ascender_unscaled,
    font.font_metrics.descender_unscaled, font.font_metrics.line_gap_unscaled⟩

/-- C9: shaping failure degrades to an empty glyph run and word shaping
continues.  If GSUB application fails on the raw glyph run of a word,
or GSUB succeeds and GPOS application fails, ParsedFont::shape returns
the buffer with no GlyphInfo entries instead of an error; shape_words
still produces one ShapedWord per Word token, and the ShapedWord of any
word whose shaping failed has zero glyphs and word_width 0, so layout of
the remaining words proceeds. -/
theorem c9_shaping_failure_empty_run (env : ShapingEnv) (font : ParsedFont) :
    (∀ text : List Char,
      env.gsub_apply ((font.lookup_glyph_index DOTTED_CIRCLE).getD 0)
          (map_glyphs font text) = Option.none →
      ParsedFont.shape font env text = ⟨[]⟩)
    ∧ (∀ (text : List Char) (glyphs : List RawGlyph),
      env.gsub_apply ((font.lookup_glyph_index DOTTED_CIRCLE).getD 0)
          (map_glyphs font text) = some glyphs →
      env.gpos_apply (env.init_from_glyphs glyphs) = Option.none →
      ParsedFont.shape font env text = ⟨[]⟩)
    ∧ (∀ words : Words, (shape_words words font env).items.length
        = (words.items.filter (fun w => w.word_type = Token.Word)).length)
    ∧ (∀ (words : Words) (i : Nat) (w : Word),
      (words.items.filter (fun w => w.word_type = Token.Word)).get? i = some w →
      shape font env (slice_chars_by_bytes words.internal_str 0
        w.index_start w.index_stop) = Option.none →
      (shape_words words font env).items.get? i = some ⟨[], 0⟩) := by
  refine ⟨?_, ?_, ?_, ?_⟩
  · intro text hgs
    simp [ParsedFont.shape, shape, hgs]
  · intro text glyphs hgs hgp
    simp [ParsedFont.shape, shape, hgs, hgp]
  · intro words
    simp [shape_words]
  · intro words i w hw hfail
    simp only [shape_words, List.get?_map, hw, Option.map_some]
    simp [ParsedFont.shape, hfail,
      ShapedTextBufferUnsized.get_word_visual_width_unscaled]

/-- The always-failing abstract engine used by the C9 witness. -/
def env_fail : ShapingEnv :=
  ⟨fun _ _ => Option.none, fun _ => [], fun i => some i⟩

/-- A font with no decoded glyph records and an empty cmap, used by the
C9 witness. -/
def font_empty : ParsedFont :=
  ⟨⟨1000, 800, -200, 0⟩, 0, [], Option.none, fun _ => Option.none⟩

/-- A one-word Words value, used by the C9 witness. -/
def c9_one_word : Words := ⟨[⟨0, 1, Token.Word⟩], ['a']⟩

/-- C9 witness: under the failing engine, shaping the concrete word
yields the empty run, and shape_words produces exactly one ShapedWord,
with zero glyphs and width 0, for the one Word token. -/
theorem c9_shaping_failure_empty_run_witness :
    ParsedFont.shape font_empty env_fail ['a'] = ⟨[]⟩
    ∧ (shape_words c9_one_word font_empty env_fail).items.length = 1
    ∧ (shape_words c9_one_word font_empty env_fail).items.get? 0
      = some ⟨[], 0⟩ := by
  refine ⟨(c9_shaping_failure_empty_run env_fail font_empty).1 ['a'] rfl,
    ?_, (c9_shaping_failure_empty_run env_fail font_empty).2.2.2
      c9_one_word 0 ⟨0, 1, Token.Word⟩ (by decide) rfl⟩
  rw [(c9_shaping_failure_empty_run env_fail font_empty).2.2.1 c9_one_word]
  decide

/-- C10: every GlyphInfo produced by a successful shape refers to a
glyph id with a decoded glyf record in glyph_records_decoded — a
positioned glyph without such a record is dropped by the final
filter_map, so a successfully shaped word may contain fewer glyphs than
codepoints (demonstrated by the concrete witness font below, whose
second glyph has no record). -/
theorem c10_shaped_glyphs_have_records (env : ShapingEnv) (font : ParsedFont) :
    ∀ (text : List Char) (res : ShapedTextBufferUnsized),
      shape font env text = some res →
      ∀ gi ∈ res.infos,
        (font.glyph_records_decoded.lookup gi.info.glyph.glyph_index).isSome := by
  intro text res hres gi hgi
  unfold shape at hres
  rcases hgs : env.gsub_apply ((font.lookup_glyph_index DOTTED_CIRCLE).getD 0)
      (map_glyphs font text) with _ | glyphs
  · simp [hgs] at hres
  · rcases hgp : env.gpos_apply (env.init_from_glyphs glyphs) with _ | infos
    · simp [hgs, hgp] at hres
    · simp only [hgs, hgp, Option.bind_eq_bind, Option.some_bind,
        Option.some.injEq] at hres
      subst hres
      obtain ⟨x, hx, hfx⟩ := List.mem_filterMap.mp hgi
      rcases hsz : font.get_glyph_size x.glyph.glyph_index with _ | sz
      · rw [hsz] at hfx; simp at hfx
      · rw [hsz] at hfx
        simp only [Option.map_some', Option.some.injEq] at hfx
        subst hfx
        simp only [ParsedFont.get_glyph_size] at hsz
        obtain ⟨g, hg, -⟩ := Option.map_eq_some'.mp hsz
        simp [hg]

/-- The identity abstract engine: GSUB passes the run through, each
glyph initializes to kerning 0 and Placement.none, GPOS passes the
infos through. -/
def env_id : ShapingEnv :=
  ⟨fun _ g => some g,
    fun gs => gs.map (fun g => ⟨g, 0, Placement.none⟩),
    fun i => some i⟩

/-- A font mapping the character a to glyph 1 (which has a decoded
record) and b to glyph 2 (which has none, like a typical empty space
glyph), used by the C10 witness. -/
def c10_font : ParsedFont :=
  ⟨⟨1000, 800, -200, 0⟩, 3,
    [(1, ⟨⟨10, 20, 0, 5⟩, 600⟩)], Option.none,
    fun c => if c = 97 then some 1 else if c = 98 then some 2 else Option.none⟩

/-- The shaped result of the word ab under c10_font: only the glyph of
the character a survives the record filter. -/
def c10_res : ShapedTextBufferUnsized :=
  ⟨[⟨⟨make_raw_glyph 'a' 1 Option.none, 0, Placement.none⟩, ⟨600, 10, 15⟩⟩]⟩

/-- C10 witness: shaping the two-codepoint word ab under c10_font
succeeds with a single glyph (fewer glyphs than codepoints), and the
membership theorem applied to that glyph shows its id has a decoded
record. -/
theorem c10_shaped_glyphs_have_records_witness :
    shape c10_font env_id ['a', 'b'] = some c10_res
    ∧ c10_res.infos.length = 1
    ∧ (c10_font.glyph_records_decoded.lookup
        (⟨⟨make_raw_glyph 'a' 1 Option.none, 0, Placement.none⟩,
          ⟨600, 10, 15⟩⟩ : GlyphInfo).info.glyph.glyph_index).isSome := by
  refine ⟨by decide, by decide,
    c10_shaped_glyphs_have_records env_id c10_font ['a', 'b'] c10_res
      (by decide) _ (by decide)⟩

end Azul
